import Mathlib

/-!
Shallow embedding of the multi-format calendar parsing engine of
`src/lib/calendarParser.ts` (Calendrier-CoZetik), together with proofs of the
frozen claims about it.

Modelling conventions:
* JavaScript `Date` values are modelled as `Option Int` — `some ms`
  (milliseconds since the epoch, local time identified with UTC) for a valid
  date, `none` for an `Invalid Date` (NaN timestamp).
* JavaScript string operations (`toLowerCase`, `includes`, `split`, `trim`,
  `Number`) are embedded as executable Lean functions below; `toLowerCase` is
  modelled on the ASCII range plus the accented characters occurring in the
  parser's keyword tables.
* External libraries (ical.js, the JS engine's generic `new Date(string)`
  parser) are passed in as explicit function parameters; the ExcelJS worksheet
  is modelled by the `Sheet`/`CellVal` datatypes.
-/

/-- JS `String.prototype.startsWith` on character lists. -/
def startsWithChars : List Char → List Char → Bool
  | [], _ => true
  | _ :: _, [] => false
  | p :: ps, c :: cs => p == c && startsWithChars ps cs

/-- JS `String.prototype.includes` on character lists: `pat` occurs
contiguously somewhere in the second list. -/
def subChars (pat : List Char) : List Char → Bool
  | [] => startsWithChars pat []
  | c :: cs => startsWithChars pat (c :: cs) || subChars pat cs

/-- JS `s.includes(pat)`: case-sensitive contiguous substring test. -/
def containsSub (s pat : String) : Bool :=
  subChars pat.data s.data

/-- One character of JS `String.prototype.toLowerCase`, restricted to ASCII
letters and the accented capitals that can occur in the parser's inputs. -/
def jsCharToLower (c : Char) : Char :=
  if 'A' ≤ c && c ≤ 'Z' then Char.ofNat (c.toNat + 32)
  else if c == 'É' then 'é'
  else if c == 'È' then 'è'
  else if c == 'Ê' then 'ê'
  else if c == 'Ë' then 'ë'
  else if c == 'À' then 'à'
  else if c == 'Â' then 'â'
  else if c == 'Ç' then 'ç'
  else if c == 'Î' then 'î'
  else if c == 'Ï' then 'ï'
  else if c == 'Ô' then 'ô'
  else if c == 'Ù' then 'ù'
  else if c == 'Û' then 'û'
  else if c == 'Ü' then 'ü'
  else c

/-- JS `String.prototype.toLowerCase` (restricted as documented above). -/
def jsToLower (s : String) : String :=
  ⟨s.data.map jsCharToLower⟩

/-- The availability statuses of `src/lib/types.ts`
(`AvailabilityStatus = 'available' | 'unavailable' | 'school' | 'vacation' | 'company'`). -/
inductive AvailabilityStatus where
  | available
  | unavailable
  | school
  | vacation
  | company
deriving DecidableEq, Repr

open AvailabilityStatus

/-- `detectStatusFromSummary` (calendarParser.ts lines 37–82): keyword-based
status detection over the lowercased summary, in priority order
vacation > school > unavailable > available, defaulting to school. -/
def detectStatusFromSummary (summary : String) : AvailabilityStatus :=
  let lowerSummary := jsToLower summary
  if containsSub lowerSummary "vacances" || containsSub lowerSummary "congé" ||
      containsSub lowerSummary "conge" then
    vacation
  else if containsSub lowerSummary "école" || containsSub lowerSummary "ecole" ||
      containsSub lowerSummary "cours" || containsSub lowerSummary "hetic" ||
      containsSub lowerSummary "formation" || containsSub lowerSummary "étude" ||
      containsSub lowerSummary "etude" then
    school
  else if containsSub lowerSummary "absent" || containsSub lowerSummary "indisponible" then
    unavailable
  else if containsSub lowerSummary "entreprise" || containsSub lowerSummary "disponible" ||
      containsSub lowerSummary "travail" || containsSub lowerSummary "work" then
    available
  else
    school

/-- The weekly-grid cell classifier (calendarParser.ts lines 411–425): the
status chosen for one weekday cell from its extracted text. -/
def gridCellStatus (cellValue : String) : AvailabilityStatus :=
  if cellValue == "7" || cellValue == "7.00" then
    school
  else if containsSub (jsToLower cellValue) "férié" ||
      containsSub (jsToLower cellValue) "ferie" then
    vacation
  else if containsSub (jsToLower cellValue) "vacances" ||
      containsSub (jsToLower cellValue) "exam" then
    vacation
  else if containsSub (jsToLower cellValue) "disponible" then
    available
  else if containsSub (jsToLower cellValue) "indisponible" then
    unavailable
  else
    company

example : detectStatusFromSummary "Vacances - cours annulés" = vacation := by decide
example : detectStatusFromSummary "Cours HETIC" = school := by decide
example : detectStatusFromSummary "entreprise" = available := by decide
example : detectStatusFromSummary "CONGÉ payé" = vacation := by decide
example : gridCellStatus "7" = school := by decide
example : gridCellStatus "" = company := by decide
example : gridCellStatus "indisponible" = available := by decide
example : gridCellStatus "Indisponible" = available := by decide

/-! ## Claim C2 — classifier priority: vacation beats school -/

/-- **C2.** Any label containing (case-insensitively) both a vacation keyword
("vacances", "congé"/"conge") and a school keyword ("école"/"ecole", "cours",
"hetic", "formation", "étude"/"etude") is classified `vacation`, never
`school`: the vacation tier is tested first in `detectStatusFromSummary`. -/
theorem c2_vacation_priority_over_school (s : String)
    (hvac : containsSub (jsToLower s) "vacances" = true ∨
      containsSub (jsToLower s) "congé" = true ∨
      containsSub (jsToLower s) "conge" = true)
    (_hschool : containsSub (jsToLower s) "école" = true ∨
      containsSub (jsToLower s) "ecole" = true ∨
      containsSub (jsToLower s) "cours" = true ∨
      containsSub (jsToLower s) "hetic" = true ∨
      containsSub (jsToLower s) "formation" = true ∨
      containsSub (jsToLower s) "étude" = true ∨
      containsSub (jsToLower s) "etude" = true) :
    detectStatusFromSummary s = vacation := by
  unfold detectStatusFromSummary
  rcases hvac with h | h | h <;> simp [h]

/-- Witness for C2 at the spec's own example label. -/
theorem c2_vacation_priority_over_school_witness :
    detectStatusFromSummary "Vacances - cours annulés" = vacation :=
  c2_vacation_priority_over_school "Vacances - cours annulés"
    (Or.inl (by decide)) (Or.inr (Or.inr (Or.inl (by decide))))

/-! ## Claim C10 — the free-text classifier never returns `company` -/

/-- **C10.** `detectStatusFromSummary` is total and its result always lies in
{vacation, school, unavailable, available}; in particular it never returns
`company` ("entreprise" is in the *available* keyword tier). -/
theorem c10_text_classifier_never_company :
    (∀ s, detectStatusFromSummary s ∈ [vacation, school, unavailable, available]) ∧
    detectStatusFromSummary "entreprise" = available := by
  constructor
  · intro s
    simp only [detectStatusFromSummary]
    split_ifs <;> simp
  · decide

/-! ## Claim C4 — the weekly-grid cell classifier and "indisponible" -/

/-- **C4 (bug evidence).** The weekly-grid cell classifier tests
`includes('disponible')` *before* `includes('indisponible')`; since every
string containing "indisponible" also contains "disponible", a cell reading
"indisponible" is classified `available`, and the `unavailable` branch is
unreachable for it — contradicting the spec (and the code's own
`// Indisponible` comment on that branch). -/
theorem c4_grid_indisponible_is_available :
    gridCellStatus "indisponible" = available ∧
    gridCellStatus "Indisponible" = available ∧
    gridCellStatus "indisponible toute la semaine" = available := by
  decide

/-! ## Date arithmetic (Gregorian civil calendar ↔ days, JS `Date` model) -/

/-- Days since 1970-01-01 of the Gregorian civil date `(y, m, d)`
(`m` is 1-based; the formula is linear in `d`, matching JS day overflow). -/
def daysFromCivil (y m d : Int) : Int :=
  let y2 := if m ≤ 2 then y - 1 else y
  let era := Int.ediv (if 0 ≤ y2 then y2 else y2 - 399) 400
  let yoe := y2 - era * 400
  let mp := Int.emod (m + 9) 12
  let doy := Int.ediv (153 * mp + 2) 5 + d - 1
  let doe := yoe * 365 + Int.ediv yoe 4 - Int.ediv yoe 100 + doy
  era * 146097 + doe - 719468

/-- Gregorian civil date `(y, m, d)` of a count of days since 1970-01-01. -/
def civilFromDays (z0 : Int) : Int × Int × Int :=
  let z := z0 + 719468
  let era := Int.ediv (if 0 ≤ z then z else z - 146096) 146097
  let doe := z - era * 146097
  let yoe := Int.ediv (doe - Int.ediv doe 1460 + Int.ediv doe 36524 - Int.ediv doe 146096) 365
  let y := yoe + era * 400
  let doy := doe - (365 * yoe + Int.ediv yoe 4 - Int.ediv yoe 100)
  let mp := Int.ediv (5 * doy + 2) 153
  let d := doy - Int.ediv (153 * mp + 2) 5 + 1
  let m := mp + (if mp < 10 then 3 else -9)
  (y + (if m ≤ 2 then 1 else 0), m, d)

/-- Milliseconds per day, as in the source (`24 * 60 * 60 * 1000`). -/
def msPerDay : Int := 86400000

/-- JS `new Date(year, monthIndex, day).getTime()` under the UTC-local
convention: two-digit years map to 1900+y, month overflow carries into the
year, day overflow carries linearly (all per ECMA-262 `MakeDay`). -/
def jsMakeDate (y m0 d : Int) : Int :=
  let yAdj := if 0 ≤ y ∧ y ≤ 99 then y + 1900 else y
  let ya := yAdj + Int.ediv m0 12
  let mo := Int.emod m0 12
  msPerDay * (daysFromCivil ya (mo + 1) 1 + (d - 1))

/-- `excelDateToJSDate` (calendarParser.ts lines 315–322): epoch
`new Date(1899, 11, 30)` plus `excelDate` days, in milliseconds. -/
def excelDateToJSDate (excelDate : Int) : Int :=
  let excelEpoch := jsMakeDate 1899 11 30
  let millisecondsPerDay := msPerDay
  excelEpoch + excelDate * millisecondsPerDay

/-- The civil calendar day on which a JS timestamp falls. -/
def msToCivilDay (ms : Int) : Int × Int × Int :=
  civilFromDays (Int.ediv ms msPerDay)

example : daysFromCivil 1970 1 1 = 0 := by decide
example : civilFromDays 0 = (1970, 1, 1) := by decide
example : daysFromCivil 1899 12 30 = -25569 := by decide
example : civilFromDays (-25569) = (1899, 12, 30) := by decide
example : msToCivilDay (jsMakeDate 2025 0 13) = (2025, 1, 13) := by decide

/-! ## Claim C3 — spreadsheet serial decoding -/

/-- **C3 (counterexample).** The decoder maps serial 60 to the calendar day
1900-02-28, not 1900-02-29 as the claim states: a JS `Date` cannot represent
the fictitious Excel leap day, so the 1899-12-30 epoch yields Feb 28. -/
theorem c3_serial60_is_feb28 :
    msToCivilDay (excelDateToJSDate 60) = (1900, 2, 28) ∧
    ((1900, 2, 28) : Int × Int × Int) ≠ (1900, 2, 29) := by
  decide

/-- **C3 (amended).** Interpreting a serial as days since the 1899-12-30
epoch: serial 1 decodes to 1899-12-31 (as claimed), serial 60 decodes to
1900-02-28 (the legacy leap-day serial is *not* reproduced as Feb 29), and
from serial 61 on (e.g. 1900-03-01) the decoding matches the real calendar. -/
theorem c3_serial_decoding_amended :
    msToCivilDay (excelDateToJSDate 1) = (1899, 12, 31) ∧
    msToCivilDay (excelDateToJSDate 60) = (1900, 2, 28) ∧
    msToCivilDay (excelDateToJSDate 61) = (1900, 3, 1) := by
  decide

/-! ## Character-list string primitives (kernel-evaluable) -/

/-- Whitespace for `trim` (space, tab, CR, LF — the characters occurring in
calendar files). -/
def isWsChar (c : Char) : Bool :=
  c == ' ' || c == '\t' || c == '\n' || c == '\r'

/-- JS `String.prototype.trim` (over the whitespace characters above). -/
def jsTrim (s : String) : String :=
  ⟨((s.data.dropWhile isWsChar).reverse.dropWhile isWsChar).reverse⟩

/-- `split` on a single-character separator (every separator the parser uses
is one character: '/', ',', '.', newline). Mirrors JS `String.split`. -/
def splitOnChar (sep : Char) : List Char → List (List Char)
  | [] => [[]]
  | c :: cs =>
    let r := splitOnChar sep cs
    if c == sep then [] :: r
    else
      match r with
      | [] => [[c]]
      | h :: t => (c :: h) :: t

/-- String-level wrapper of `splitOnChar`. -/
def jsSplit (sep : Char) (s : String) : List String :=
  (splitOnChar sep s.data).map fun l => ⟨l⟩

/-- Digit-string to `Nat` (`none` unless nonempty and all digits). -/
def digitsToNat? (l : List Char) : Option Nat :=
  if l.isEmpty then none
  else
    l.foldl
      (fun acc c =>
        match acc with
        | none => none
        | some n => if c.isDigit then some (n * 10 + (c.toNat - 48)) else none)
      (some 0)

/-- JS `Number(string)` restricted to optionally signed integer literals:
whitespace-only strings give 0, integer literals their value, anything else
NaN (`none`). (Fractional/exponent literals are out of scope for the date
texts the parser feeds through this.) -/
def jsNumber (s : String) : Option Int :=
  match (jsTrim s).data with
  | [] => some 0
  | '-' :: rest => (digitsToNat? rest).map fun n => -(n : Int)
  | '+' :: rest => (digitsToNat? rest).map fun n => (n : Int)
  | l => (digitsToNat? l).map fun n => (n : Int)

example : jsNumber "13" = some 13 := by decide
example : jsNumber " 2025 " = some 2025 := by decide
example : jsNumber "" = some 0 := by decide
example : jsNumber "abc" = none := by decide
example : jsSplit '/' "13/01/2025" = ["13", "01", "2025"] := by decide
example : jsSplit '.' "foo." = ["foo", ""] := by decide

/-! ## Output data model (`src/lib/types.ts`) -/

/-- `CalendarEvent` of `src/lib/types.ts`: the parser's output unit. The `id`
is synthesized in the source from wall-clock time plus a random suffix; no
claim concerns it, so it is modelled as a constant string. Dates are JS
timestamps in milliseconds. -/
structure CalendarEvent where
  id : String
  memberId : String
  startDate : Int
  endDate : Int
  status : AvailabilityStatus
  note : Option String
  isImported : Bool
deriving DecidableEq, Repr

/-- `CalendarParseResult` of `src/lib/types.ts`; the optional `errors` /
`warnings` arrays are modelled as lists with `[]` for "absent". -/
structure ParseResult where
  success : Bool
  events : List CalendarEvent
  errors : List String
  warnings : List String
deriving DecidableEq, Repr

/-- `startOfDay` (date-fns) on a millisecond timestamp: midnight of its day. -/
def startOfDayMs (ms : Int) : Int :=
  msPerDay * Int.ediv ms msPerDay

/-- `endOfDay` (date-fns) on a millisecond timestamp: 23:59:59.999 of its
day, i.e. 1 ms before the next midnight. -/
def endOfDayMs (ms : Int) : Int :=
  startOfDayMs ms + (msPerDay - 1)

/-- Every parser builds events through this shape:
`startOfDay(start)` / `endOfDay(end)`, `isImported: true`. -/
def mkImportedEvent (memberId : String) (s e : Int) (status : AvailabilityStatus)
    (note : Option String) : CalendarEvent :=
  { id := "import", memberId := memberId, startDate := startOfDayMs s,
    endDate := endOfDayMs e, status := status, note := note, isImported := true }

/-- An error-shaped result: `success: false`, no events, given errors. -/
def mkErrorResult (errs : List String) : ParseResult :=
  { success := false, events := [], errors := errs, warnings := [] }

/-- Error-shaped result that also carries accumulated warnings. -/
def mkErrorResultW (errs warns : List String) : ParseResult :=
  { success := false, events := [], errors := errs, warnings := warns }

/-- The common tail of all three parsers: if no valid event was produced the
file fails with the parser's "no valid events" message, otherwise success. -/
def finalize (emptyMsg : String) (res : List CalendarEvent × List String) : ParseResult :=
  if res.1.isEmpty then
    { success := false, events := [], errors := [emptyMsg], warnings := res.2 }
  else
    { success := true, events := res.1, errors := [], warnings := res.2 }

/-- The ParseResult invariant of claim C1. -/
def resultInvariant (r : ParseResult) : Prop :=
  (r.success = true → r.events ≠ []) ∧ (r.errors ≠ [] → r.success = false)

/-- The day-normalization invariant of claim C7: `startDate` is a midnight,
`endDate` is 1 ms before a midnight (23:59:59.999), and the range is
non-inverted. -/
def dayNormalized (ev : CalendarEvent) : Prop :=
  Int.emod ev.startDate msPerDay = 0 ∧
  Int.emod ev.endDate msPerDay = msPerDay - 1 ∧
  ev.startDate ≤ ev.endDate

/-- Row/event loops as in the source: each item contributes a list of events
and a list of warnings, concatenated in order. -/
def collectSteps (step : α → List CalendarEvent × List String) (l : List α) :
    List CalendarEvent × List String :=
  ((l.map fun x => (step x).1).flatten, (l.map fun x => (step x).2).flatten)

theorem mem_collectSteps_events {step : α → List CalendarEvent × List String}
    {l : List α} {ev : CalendarEvent} :
    ev ∈ (collectSteps step l).1 ↔ ∃ x ∈ l, ev ∈ (step x).1 := by
  simp [collectSteps]

theorem startOfDayMs_emod (x : Int) : Int.emod (startOfDayMs x) msPerDay = 0 := by
  unfold startOfDayMs
  exact Int.mul_emod_right _ _

theorem endOfDayMs_emod (x : Int) : Int.emod (endOfDayMs x) msPerDay = msPerDay - 1 := by
  unfold endOfDayMs startOfDayMs
  show (86400000 * (x / 86400000) + (86400000 - 1)) % 86400000 = 86400000 - 1
  omega

theorem startOfDayMs_mono {s e : Int} (h : s ≤ e) : startOfDayMs s ≤ startOfDayMs e := by
  unfold startOfDayMs
  have hdiv : Int.ediv s msPerDay ≤ Int.ediv e msPerDay :=
    Int.ediv_le_ediv (by decide) h
  exact Int.mul_le_mul_of_nonneg_left hdiv (by decide)

theorem mkImportedEvent_normalized {m : String} {s e : Int} {st : AvailabilityStatus}
    {note : Option String} (h : s ≤ e) : dayNormalized (mkImportedEvent m s e st note) := by
  refine ⟨startOfDayMs_emod s, endOfDayMs_emod e, ?_⟩
  calc startOfDayMs s ≤ startOfDayMs e := startOfDayMs_mono h
    _ ≤ startOfDayMs e + (msPerDay - 1) := by simp [msPerDay]

/-! ## ExcelJS worksheet model -/

/-- The cell-value shapes the parser distinguishes (calendarParser.ts
`extractCellText`, lines 518–549): null, string, number, `Date`, rich text,
and other objects. Numbers are integer-valued here (fractional serials do not
occur in the claims); `objText` carries the display text that the
formula-result / `{text}` / `cell.text` fallbacks of the source produce. -/
inductive CellVal where
  | empty
  | str (s : String)
  | num (n : Int)
  | date (ms : Int)
  | rich (segs : List String)
  | objText (t : String)
deriving DecidableEq, Repr

/-- `toLocaleDateString('fr-FR')`: zero-padded `DD/MM/YYYY`. -/
def pad2 (n : Int) : String :=
  if 0 ≤ n ∧ n < 10 then "0" ++ toString n else toString n

/-- French locale rendering of the calendar day of a JS timestamp. -/
def formatFrDate (ms : Int) : String :=
  match civilFromDays (Int.ediv ms msPerDay) with
  | (y, m, d) => pad2 d ++ "/" ++ pad2 m ++ "/" ++ toString y

/-- `extractCellText` (calendarParser.ts lines 518–549). A falsy value
(null, `''`, `0`) yields `''`; strings and numbers are stringified; `Date`
values render in French locale; rich text concatenates its nonempty runs;
other objects yield their display text. -/
def extractCellText (cell : CellVal) : String :=
  match cell with
  | .empty => ""
  | .str s => s
  | .num n => if n == 0 then "" else toString n
  | .date ms => formatFrDate ms
  | .rich segs => String.join (segs.filter fun t => t != "")
  | .objText t => t

/-- JS truthiness of a cell value (`!cell.value` tests in the source). -/
def cellTruthy : CellVal → Bool
  | .empty => false
  | .str s => s != ""
  | .num n => n != 0
  | _ => true

/-- JS `String(value)` for a cell value, as fed to `new Date(String(v))` and
`String(typeValue)`: objects render as "[object Object]". -/
def jsStringOfValue : CellVal → String
  | .empty => "null"
  | .str s => s
  | .num n => toString n
  | .date ms => formatFrDate ms
  | .rich _ => "[object Object]"
  | .objText _ => "[object Object]"

/-- One worksheet row; position `i` in the list is physical column `i+1`. -/
abbrev Row := List CellVal

/-- A worksheet: list of rows, position `i` is physical row `i+1`. -/
abbrev Sheet := List Row

/-- `row.getCell(colNumber)` — 1-based; absent cells are null. -/
def getCell (r : Row) (i : Nat) : CellVal :=
  r.getD (i - 1) .empty

/-- `worksheet.getRow(rowNumber)` — 1-based; absent rows are empty. -/
def getRow (ws : Sheet) (n : Nat) : Row :=
  ws.getD (n - 1) []

/-- `worksheet.rowCount`. -/
def rowCount (ws : Sheet) : Nat :=
  ws.length

/-- `row.hasValues`. -/
def rowHasValues (r : Row) : Bool :=
  r.any fun c => c != CellVal.empty

/-! ## Column map (JS `Map<string, number>`) -/

/-- Insertion-ordered key/value association, as a JS `Map`. -/
abbrev ColumnMap := List (String × Nat)

/-- `Map.set`: overwrite in place if the key exists, else append. -/
def mapSet (m : ColumnMap) (k : String) (v : Nat) : ColumnMap :=
  if m.any fun p => p.1 == k then
    m.map fun p => if p.1 == k then (k, v) else p
  else
    m ++ [(k, v)]

/-- `Map.keys()` in insertion order. -/
def mapKeys (m : ColumnMap) : List String :=
  m.map fun p => p.1

/-- `Map.get`. -/
def mapGet (m : ColumnMap) (k : String) : Option Nat :=
  (m.find? fun p => p.1 == k).map fun p => p.2

/-! ## Header scan (calendarParser.ts lines 551–596) -/

/-- One scanned row: its candidate column map (lower-cased, trimmed,
nonempty cell texts → column numbers) and the raw list of those texts
(`rowValues`). -/
def buildRowMap (r : Row) : ColumnMap × List String :=
  r.enum.foldl
    (fun acc p =>
      let text := jsTrim (jsToLower (extractCellText p.2))
      if text != "" && text != "[object object]" then
        (mapSet acc.1 text (p.1 + 1), acc.2 ++ [text])
      else acc)
    ([], [])

/-- Scan condition: a week-number-like column name. -/
def scanHasSemaine (m : ColumnMap) : Bool :=
  (mapKeys m).any fun col =>
    containsSub col "semaine" || containsSub col "week" || col == "n°" ||
      containsSub col "n° semaine"

/-- Scan condition: a date/Monday column name. -/
def scanHasDate (m : ColumnMap) : Bool :=
  (mapKeys m).any fun col => containsSub col "date" || containsSub col "lundi"

/-- Scan condition: a single-letter weekday column (lu/ma/me/je/ve). -/
def scanHasWeekday (m : ColumnMap) : Bool :=
  (mapKeys m).any fun col =>
    col == "lu" || col == "ma" || col == "me" || col == "je" || col == "ve"

/-- Header-row acceptance: (semaine ∧ date) ∨ weekday columns ∨ more than 3
distinct non-empty values. -/
def acceptHeaderRow (m : ColumnMap) (rowValues : List String) : Bool :=
  (scanHasSemaine m && scanHasDate m) || scanHasWeekday m ||
    decide (3 < rowValues.dedup.length)

/-- First accepted row among the given row numbers; the fallback
`([], 1, 2)` is the loop's initial state (empty map → later size-0 error). -/
def findHeaderAux (ws : Sheet) : List Nat → ColumnMap × Nat × Nat
  | [] => ([], 1, 2)
  | n :: rest =>
    let bm := buildRowMap (getRow ws n)
    if acceptHeaderRow bm.1 bm.2 then (bm.1, n, n + 1) else findHeaderAux ws rest

/-- Header search over the first `min 10 rowCount` physical rows, returning
(columnMap, headerRowNumber, dataStartRow). -/
def findHeader (ws : Sheet) : ColumnMap × Nat × Nat :=
  findHeaderAux ws (List.range' 1 (min 10 (rowCount ws)))

/-! ## Weekly-grid sub-parser (calendarParser.ts lines 330–459) -/

/-- A detected weekday column: `{ day, colIndex, dayOffset }`. -/
structure WeekdayCol where
  day : String
  colIndex : Nat
  dayOffset : Nat
deriving DecidableEq, Repr

/-- `dayMapping`: exact two-letter weekday names to Monday-based offsets. -/
def dayMapping : String → Option Nat
  | "lu" => some 0
  | "ma" => some 1
  | "me" => some 2
  | "je" => some 3
  | "ve" => some 4
  | "sa" => some 5
  | "di" => some 6
  | _ => none

/-- The weekday columns of a column map, sorted by weekday offset
(Monday=0 … Sunday=6) as in the source (`weekdayColumns.sort`). -/
def weekdayColumnsOf (m : ColumnMap) : List WeekdayCol :=
  (m.filterMap fun p => (dayMapping p.1).map fun off => WeekdayCol.mk p.1 p.2 off).mergeSort
    fun a b => a.dayOffset ≤ b.dayOffset

/-- The weekly parser's anchor-date reading of a cell text: split on '/',
require exactly 3 numeric parts `DD/MM/YYYY`, build `new Date(y, m-1, d)`.
`none` exactly when the source's per-row date parse warns and skips. -/
def parseAnchorDate (dateText : String) : Option Int :=
  let dateParts := jsSplit '/' dateText
  if dateParts.length != 3 then none
  else
    match jsNumber (dateParts.getD 0 ""), jsNumber (dateParts.getD 1 ""),
        jsNumber (dateParts.getD 2 "") with
    | some day, some month, some year => some (jsMakeDate year (month - 1) day)
    | _, _, _ => none

/-- One data row of the weekly grid: skip valueless rows silently, skip
empty/"synthèse"/"période" anchor cells silently, warn (and emit nothing) on
a malformed or invalid anchor date, else emit one single-day event per
detected weekday column at `monday + dayOffset`. -/
def weekRowStep (dateColIndex : Nat) (weekdayColumns : List WeekdayCol)
    (memberId : String) (rowNum : Nat) (row : Row) :
    List CalendarEvent × List String :=
  if !rowHasValues row then ([], [])
  else
    let dateText := extractCellText (getCell row dateColIndex)
    if dateText == "" || containsSub dateText "synthèse" ||
        containsSub dateText "période" then ([], [])
    else
      let dateParts := jsSplit '/' dateText
      if dateParts.length != 3 then
        ([], ["Ligne " ++ toString rowNum ++ ": Format de date invalide \"" ++ dateText ++ "\""])
      else
        match jsNumber (dateParts.getD 0 ""), jsNumber (dateParts.getD 1 ""),
            jsNumber (dateParts.getD 2 "") with
        | some day, some month, some year =>
          let mondayDate := jsMakeDate year (month - 1) day
          (weekdayColumns.map fun wc =>
            let cellValue := extractCellText (getCell row wc.colIndex)
            let currentDate := mondayDate + msPerDay * (wc.dayOffset : Int)
            mkImportedEvent memberId currentDate currentDate (gridCellStatus cellValue)
              (if cellValue == "" then none else some cellValue),
           [])
        | _, _, _ =>
          ([], ["Ligne " ++ toString rowNum ++ ": Date invalide \"" ++ dateText ++ "\""])

/-- `parseWeeklyCalendarFormat` (calendarParser.ts lines 330–459). The
source also looks up a week-number column index, used only for a log line,
omitted here. `!dateColIndex` is modelled by `getD 0` (column numbers are
1-based, so 0 encodes "undefined"). -/
def parseWeeklyCalendarFormat (ws : Sheet) (columnMap : ColumnMap)
    (dataStartRow : Nat) (memberId : String) : ParseResult :=
  let dateColIndex :=
    ((columnMap.find? fun p => containsSub p.1 "date" || containsSub p.1 "lundi").map
      fun p => p.2).getD 0
  let weekdayColumns := weekdayColumnsOf columnMap
  if dateColIndex == 0 || weekdayColumns.isEmpty then
    mkErrorResult
      ["Format calendrier hebdomadaire invalide : colonnes date ou jours manquantes"]
  else
    let rowNums := List.range' dataStartRow (rowCount ws + 1 - dataStartRow)
    let res := collectSteps
      (fun n => weekRowStep dateColIndex weekdayColumns memberId n (getRow ws n)) rowNums
    finalize "Aucun événement trouvé dans le calendrier hebdomadaire" res

/-! ## Claim C9 — weekday columns iterate in Monday…Sunday order -/

theorem weekdayColumnsOf_sorted (m : ColumnMap) :
    List.Pairwise (fun a b : WeekdayCol => a.dayOffset ≤ b.dayOffset) (weekdayColumnsOf m) := by
  unfold weekdayColumnsOf
  have h := @List.sorted_mergeSort WeekdayCol (fun a b => a.dayOffset ≤ b.dayOffset)
    (fun a b c hab hbc => by simp_all; omega)
    (fun a b => by simp; omega)
    (m.filterMap fun p => (dayMapping p.1).map fun off => WeekdayCol.mk p.1 p.2 off)
  exact h.imp (fun hh => by simpa using hh)

/-- **C9.** The weekly-grid sub-parser's weekday columns are identified by
exact two-letter name matches (`dayMapping`) and sorted by weekday offset
(Monday=0 … Sunday=6) regardless of their physical order in `cm`;
consequently the events a week row emits are in ascending (Monday-to-Sunday)
`startDate` order. -/
theorem c9_weekday_iteration_sorted (cm : ColumnMap) (dCol : Nat) (memberId : String)
    (rowNum : Nat) (row : Row) :
    List.Sorted (fun a b : WeekdayCol => a.dayOffset ≤ b.dayOffset) (weekdayColumnsOf cm) ∧
    List.Sorted (· ≤ ·)
      (((weekRowStep dCol (weekdayColumnsOf cm) memberId rowNum row).1).map
        CalendarEvent.startDate) := by
  refine ⟨weekdayColumnsOf_sorted cm, ?_⟩
  rw [weekRowStep]
  split
  · simp [List.Sorted]
  · dsimp only
    split
    · simp [List.Sorted]
    · split
      · simp [List.Sorted]
      · split
        · simp only [List.map_map]
          refine List.Pairwise.map _ ?_ (weekdayColumnsOf_sorted cm)
          intro a b hab
          simp only [Function.comp, mkImportedEvent]
          apply startOfDayMs_mono
          have : (a.dayOffset : Int) ≤ (b.dayOffset : Int) := Int.ofNat_le.mpr hab
          unfold msPerDay
          omega
        · simp [List.Sorted]

/-! ## Claim C8 — invalid-anchor rows: one warning, zero events, loop continues -/

theorem collectSteps_append (step : α → List CalendarEvent × List String) (l1 l2 : List α) :
    collectSteps step (l1 ++ l2) =
      ((collectSteps step l1).1 ++ (collectSteps step l2).1,
       (collectSteps step l1).2 ++ (collectSteps step l2).2) := by
  simp [collectSteps]

/-- **C8.** In the weekly-grid sub-parser, a data row (non-empty, not a
"synthèse"/"période" summary row) whose anchor-date cell does not parse as a
valid `DD/MM/YYYY` date contributes exactly one warning and zero events, and
the surrounding rows' contributions are exactly what they would be without
it (parsing continues). -/
theorem c8_invalid_anchor_row_isolated (dCol : Nat) (wcols : List WeekdayCol)
    (memberId : String) (ws : Sheet) (n : Nat)
    (hvals : rowHasValues (getRow ws n) = true)
    (hne : extractCellText (getCell (getRow ws n) dCol) ≠ "")
    (hsyn : containsSub (extractCellText (getCell (getRow ws n) dCol)) "synthèse" = false)
    (hper : containsSub (extractCellText (getCell (getRow ws n) dCol)) "période" = false)
    (hbad : parseAnchorDate (extractCellText (getCell (getRow ws n) dCol)) = none) :
    (weekRowStep dCol wcols memberId n (getRow ws n)).1 = [] ∧
    (weekRowStep dCol wcols memberId n (getRow ws n)).2.length = 1 ∧
    ∀ pre post : List Nat,
      (collectSteps (fun k => weekRowStep dCol wcols memberId k (getRow ws k))
          (pre ++ n :: post)).1 =
        (collectSteps (fun k => weekRowStep dCol wcols memberId k (getRow ws k)) pre).1 ++
          (collectSteps (fun k => weekRowStep dCol wcols memberId k (getRow ws k)) post).1 ∧
      (collectSteps (fun k => weekRowStep dCol wcols memberId k (getRow ws k))
          (pre ++ n :: post)).2 =
        (collectSteps (fun k => weekRowStep dCol wcols memberId k (getRow ws k)) pre).2 ++
          (weekRowStep dCol wcols memberId n (getRow ws n)).2 ++
          (collectSteps (fun k => weekRowStep dCol wcols memberId k (getRow ws k)) post).2 := by
  have hstep : (weekRowStep dCol wcols memberId n (getRow ws n)).1 = [] ∧
      (weekRowStep dCol wcols memberId n (getRow ws n)).2.length = 1 := by
    rw [weekRowStep]
    rw [if_neg (by simp [hvals])]
    try dsimp only
    rw [if_neg (by simp [hne, hsyn, hper])]
    try dsimp only
    unfold parseAnchorDate at hbad
    try dsimp only at hbad
    split
    · simp
    · rename_i hlen
      rw [if_neg hlen] at hbad
      split
      · rename_i day month year hd hm hy
        rw [hd, hm, hy] at hbad
        simp at hbad
      · simp
  refine ⟨hstep.1, hstep.2, fun pre post => ⟨?_, ?_⟩⟩
  · simp only [collectSteps, List.map_append, List.map_cons, List.flatten_append,
      List.flatten_cons, hstep.1, List.nil_append]
  · simp only [collectSteps, List.map_append, List.map_cons, List.flatten_append,
      List.flatten_cons, List.append_assoc]

/-- Witness for C8: a row whose anchor cell reads "abc". -/
theorem c8_invalid_anchor_row_isolated_witness :
    (weekRowStep 2 [⟨"lu", 3, 0⟩] "m" 1
        (getRow [[CellVal.str "x", CellVal.str "abc", CellVal.str "7"]] 1)).1 = [] ∧
    (weekRowStep 2 [⟨"lu", 3, 0⟩] "m" 1
        (getRow [[CellVal.str "x", CellVal.str "abc", CellVal.str "7"]] 1)).2.length = 1 ∧
    ((collectSteps (fun k => weekRowStep 2 [⟨"lu", 3, 0⟩] "m" k
          (getRow [[CellVal.str "x", CellVal.str "abc", CellVal.str "7"]] k))
        ([5] ++ 1 :: [7])).1 =
      (collectSteps (fun k => weekRowStep 2 [⟨"lu", 3, 0⟩] "m" k
          (getRow [[CellVal.str "x", CellVal.str "abc", CellVal.str "7"]] k)) [5]).1 ++
        (collectSteps (fun k => weekRowStep 2 [⟨"lu", 3, 0⟩] "m" k
          (getRow [[CellVal.str "x", CellVal.str "abc", CellVal.str "7"]] k)) [7]).1 ∧
      (collectSteps (fun k => weekRowStep 2 [⟨"lu", 3, 0⟩] "m" k
          (getRow [[CellVal.str "x", CellVal.str "abc", CellVal.str "7"]] k))
          ([5] ++ 1 :: [7])).2 =
        (collectSteps (fun k => weekRowStep 2 [⟨"lu", 3, 0⟩] "m" k
            (getRow [[CellVal.str "x", CellVal.str "abc", CellVal.str "7"]] k)) [5]).2 ++
          (weekRowStep 2 [⟨"lu", 3, 0⟩] "m" 1
            (getRow [[CellVal.str "x", CellVal.str "abc", CellVal.str "7"]] 1)).2 ++
          (collectSteps (fun k => weekRowStep 2 [⟨"lu", 3, 0⟩] "m" k
            (getRow [[CellVal.str "x", CellVal.str "abc", CellVal.str "7"]] k)) [7]).2) := by
  have h := c8_invalid_anchor_row_isolated 2 [⟨"lu", 3, 0⟩] "m"
    [[CellVal.str "x", CellVal.str "abc", CellVal.str "7"]] 1
    (by decide) (by decide) (by decide) (by decide) (by decide)
  exact ⟨h.1, h.2.1, h.2.2 [5] [7]⟩

/-! ## Generic tabular Excel parser and the Excel facade
(calendarParser.ts lines 485–787) -/

/-- `getCellValue` (lines 292–306): first listed column name present in the
map wins; returns that cell's raw value (even if the cell is empty). -/
def getCellValueOpt (row : Row) (possibleNames : List String)
    (columnMap : ColumnMap) : Option CellVal :=
  possibleNames.findSome? fun name =>
    (mapGet columnMap (jsTrim (jsToLower name))).map fun colIndex => getCell row colIndex

/-- JS truthiness of a possibly-missing cell value. -/
def optCellTruthy : Option CellVal → Bool
  | some v => cellTruthy v
  | none => false

/-- Date conversion of a cell value (lines 705–721): numbers through
`excelDateToJSDate`, `Date` values pass through, everything else through the
JS engine's string date parser `jsd`. -/
def cellToJsDate (jsd : String → Option Int) : CellVal → Option Int
  | .num k => some (excelDateToJSDate k)
  | .date ms => some ms
  | v => jsd (jsStringOfValue v)

/-- Start-date column synonyms (generic Excel path). -/
def dateDebutNamesExcel : List String :=
  ["date début", "date de début", "start date", "date", "date_debut", "début", "debut"]

/-- End-date column synonyms (generic Excel path). -/
def dateFinNamesExcel : List String :=
  ["date fin", "date de fin", "end date", "date_fin", "fin"]

/-- Type/status column synonyms (generic Excel path). -/
def typeNamesExcel : List String :=
  ["type", "statut", "status", "état", "etat"]

/-- One data row of the generic Excel table (lines 650–759): start date
mandatory, end date defaults to start, type defaults to the literal "école";
invalid or inverted dates warn and skip; otherwise one event is emitted. -/
def excelRowStep (jsd : String → Option Int) (columnMap : ColumnMap)
    (memberId : String) (rowNumber : Nat) (row : Row) :
    List CalendarEvent × List String :=
  if !rowHasValues row then ([], [])
  else
    let dateDebutOpt := getCellValueOpt row dateDebutNamesExcel columnMap
    if !optCellTruthy dateDebutOpt then
      ([], ["Ligne " ++ toString rowNumber ++ ": Date de début manquante"])
    else
      let dateDebutValue := dateDebutOpt.getD .empty
      let dateFinOpt := getCellValueOpt row dateFinNamesExcel columnMap
      let dateFinValue :=
        if optCellTruthy dateFinOpt then dateFinOpt.getD .empty else dateDebutValue
      let typeOpt := getCellValueOpt row typeNamesExcel columnMap
      let typeValue := if optCellTruthy typeOpt then typeOpt.getD .empty else .str "école"
      match cellToJsDate jsd dateDebutValue, cellToJsDate jsd dateFinValue with
      | some startDate, some endDate =>
        if endDate < startDate then
          ([], ["Ligne " ++ toString rowNumber ++ ": Date de fin avant date de début"])
        else
          let typeStr := jsStringOfValue typeValue
          ([mkImportedEvent memberId startDate endDate (detectStatusFromSummary typeStr)
              (some typeStr)], [])
      | _, _ => ([], ["Ligne " ++ toString rowNumber ++ ": Date invalide"])

/-- Step-5 dispatch condition (lines 613–615): week-number-like column. -/
def dispatchHasSemaine (m : ColumnMap) : Bool :=
  (mapKeys m).any fun col =>
    containsSub col "semaine" || containsSub col "week" || col == "n°"

/-- Step-5 dispatch condition (lines 617–619): a lu/ma/me weekday column. -/
def dispatchHasWeekday (m : ColumnMap) : Bool :=
  (mapKeys m).any fun col => col == "lu" || col == "ma" || col == "me"

/-- Generic-table validation (lines 628–630): a date-like column. -/
def genericHasDateColumn (m : ColumnMap) : Bool :=
  (mapKeys m).any fun col =>
    containsSub col "date" || containsSub col "début" || containsSub col "debut" ||
      containsSub col "start"

/-- `parseExcelFile` (lines 485–787). The workbook read is modelled by
`worksheet?` (`none` when the workbook has no sheet); `jsd` is the JS
engine's string-to-date parser. -/
def parseExcelFile (jsd : String → Option Int) (worksheet? : Option Sheet)
    (memberId : String) : ParseResult :=
  match worksheet? with
  | none => mkErrorResult ["Le fichier Excel ne contient aucune feuille"]
  | some worksheet =>
    let fh := findHeader worksheet
    let columnMap := fh.1
    let dataStartRow := fh.2.2
    if columnMap.isEmpty then
      mkErrorResult
        ["Aucune colonne d\u0027en-tête valide détectée dans les 10 premières lignes.",
         "Format attendu: Le fichier doit contenir une ligne d\u0027en-têtes avec : Date début | Date fin | Type",
         "Ou un format calendrier hebdomadaire avec : N° Semaine | Date | LU | MA | ME..."]
    else if dispatchHasSemaine columnMap && dispatchHasWeekday columnMap then
      parseWeeklyCalendarFormat worksheet columnMap dataStartRow memberId
    else if genericHasDateColumn columnMap then
      let rowNums := List.range' dataStartRow (rowCount worksheet + 1 - dataStartRow)
      let res := collectSteps
        (fun n => excelRowStep jsd columnMap memberId n (getRow worksheet n)) rowNums
      finalize "Aucun événement valide trouvé dans le fichier Excel" res
    else
      mkErrorResult
        ["Colonne \"date début\" ou \"date\" non trouvée. Colonnes détectées: " ++
           String.intercalate ", " (mapKeys columnMap),
         "Format attendu: Le fichier doit contenir une colonne \"Date début\" ou \"Date\""]

/-! ## Claim C5 — weekly-grid routing precedes the generic >3-distinct rule -/

/-- **C5.** Whenever the detected header row's column map contains the
week-number column "n° semaine", a date column, and the weekday columns
lu…di, `parseExcelFile` dispatches to `parseWeeklyCalendarFormat` — with no
assumption about (and in particular regardless of) the number of distinct
header values, since the weekly-grid dispatch conditions are tested before
the generic path. -/
theorem c5_weekly_grid_routing (jsd : String → Option Int) (ws : Sheet)
    (memberId : String) (cm : ColumnMap) (hr ds : Nat)
    (hfind : findHeader ws = (cm, hr, ds))
    (hsem : "n° semaine" ∈ mapKeys cm)
    (_hdate : ∃ k ∈ mapKeys cm, containsSub k "date" = true)
    (hlu : "lu" ∈ mapKeys cm) (_hma : "ma" ∈ mapKeys cm) (_hme : "me" ∈ mapKeys cm)
    (_hje : "je" ∈ mapKeys cm) (_hve : "ve" ∈ mapKeys cm) (_hsa : "sa" ∈ mapKeys cm)
    (_hdi : "di" ∈ mapKeys cm) :
    parseExcelFile jsd (some ws) memberId = parseWeeklyCalendarFormat ws cm ds memberId := by
  have hs : dispatchHasSemaine cm = true :=
    List.any_eq_true.mpr ⟨"n° semaine", hsem, by decide⟩
  have hw : dispatchHasWeekday cm = true :=
    List.any_eq_true.mpr ⟨"lu", hlu, by decide⟩
  have hne : cm.isEmpty = false := by
    cases cm with
    | nil => simp [mapKeys] at hsem
    | cons a t => simp
  unfold parseExcelFile
  dsimp only
  rw [hfind]
  simp [hne, hs, hw]

/-- Witness sheet for C5: a single header row that has nine distinct values
(more than 3) *and* the weekly-grid columns. -/
def c5SheetExample : Sheet :=
  [[CellVal.str "N° Semaine", CellVal.str "Date", CellVal.str "LU", CellVal.str "MA",
    CellVal.str "ME", CellVal.str "JE", CellVal.str "VE", CellVal.str "SA",
    CellVal.str "DI"]]

/-- The column map the header scan discovers on `c5SheetExample`. -/
def c5MapExample : ColumnMap :=
  [("n° semaine", 1), ("date", 2), ("lu", 3), ("ma", 4), ("me", 5), ("je", 6),
   ("ve", 7), ("sa", 8), ("di", 9)]

/-- Witness for C5 on the concrete nine-column header sheet. -/
theorem c5_weekly_grid_routing_witness :
    parseExcelFile (fun _ => none) (some c5SheetExample) "m" =
      parseWeeklyCalendarFormat c5SheetExample c5MapExample 2 "m" :=
  c5_weekly_grid_routing (fun _ => none) c5SheetExample "m" c5MapExample 1 2
    (by decide) (by decide) ⟨"date", by decide, by decide⟩ (by decide) (by decide)
    (by decide) (by decide) (by decide) (by decide) (by decide)

/-! ## CSV parser (calendarParser.ts lines 796–1005) -/

/-- `.replace(/^"|"$/g, '')`: strip one surrounding quote on each side. -/
def stripQuotes (s : String) : String :=
  let a := s.data
  let b := if a.head? == some '"' then a.tail else a
  let c := if b.getLast? == some '"' then b.dropLast else b
  ⟨c⟩

/-- `text.split(/\r?\n/)` followed by the blank-line filter. -/
def csvLines (text : String) : List String :=
  ((jsSplit '\n' text).map fun l =>
    if l.data.getLast? == some '\r' then (⟨l.data.dropLast⟩ : String) else l).filter
    fun l => jsTrim l != ""

/-- A CSV row object: insertion-ordered string keys to string values. -/
abbrev CsvRow := List (String × String)

/-- JS object property assignment `row[header] = value`. -/
def objSet (row : CsvRow) (k v : String) : CsvRow :=
  if row.any fun p => p.1 == k then
    row.map fun p => if p.1 == k then (k, v) else p
  else
    row ++ [(k, v)]

/-- `parseSimpleCSV` (lines 796–821): first nonblank line is the header,
remaining lines become row objects; missing values default to `''`. -/
def parseSimpleCSV (text : String) : List CsvRow :=
  match csvLines text with
  | [] => []
  | headerLine :: rest =>
    let headers := (jsSplit ',' headerLine).map fun h => stripQuotes (jsTrim h)
    rest.map fun line =>
      let values := (jsSplit ',' line).map fun v => stripQuotes (jsTrim v)
      headers.enum.foldl (fun row p => objSet row p.2 (values.getD p.1 "")) []

/-- JS object property read `row[k]`. -/
def lookupObj (row : CsvRow) (k : String) : Option String :=
  (row.find? fun p => p.1 == k).map fun p => p.2

/-- One name of `getCSVValue` (lines 830–849): exact truthy match first,
then the first key equal case-insensitively (returned even if empty). -/
def getCSVValueOne (row : CsvRow) (name : String) : Option String :=
  let ciScan := (row.find? fun p => jsToLower p.1 == jsToLower name).map fun p => p.2
  match lookupObj row name with
  | some v => if v != "" then some v else ciScan
  | none => ciScan

/-- `getCSVValue`: first listed name that resolves. -/
def getCSVValue (row : CsvRow) (possibleNames : List String) : Option String :=
  possibleNames.findSome? (getCSVValueOne row)

/-- JS truthiness of a possibly-missing string. -/
def truthyStr : Option String → Bool
  | some s => s != ""
  | none => false

/-- Start-date column synonyms (CSV path). -/
def dateDebutNamesCSV : List String :=
  ["Date début", "Date de début", "Start Date", "Date", "date_debut", "Début", "debut"]

/-- End-date column synonyms (CSV path). -/
def dateFinNamesCSV : List String :=
  ["Date fin", "Date de fin", "End Date", "date_fin", "Fin", "fin"]

/-- Type/status column synonyms (CSV path). -/
def typeNamesCSV : List String :=
  ["Type", "type", "Statut", "statut", "Status", "status", "État", "etat"]

/-- One CSV data row (lines 903–977): `rowNumber = index + 2`; start date
mandatory, end date defaults to start, type defaults to "école"; invalid or
inverted dates warn and skip; otherwise one event. -/
def csvRowStep (jsd : String → Option Int) (memberId : String) (index : Nat)
    (row : CsvRow) : List CalendarEvent × List String :=
  let rowNumber := index + 2
  let dateDebutOpt := getCSVValue row dateDebutNamesCSV
  if !truthyStr dateDebutOpt then
    ([], ["Ligne " ++ toString rowNumber ++ ": Date de début manquante"])
  else
    let dateDebutValue := dateDebutOpt.getD ""
    let dateFinOpt := getCSVValue row dateFinNamesCSV
    let dateFinValue := if truthyStr dateFinOpt then dateFinOpt.getD "" else dateDebutValue
    let typeOpt := getCSVValue row typeNamesCSV
    let typeValue := if truthyStr typeOpt then typeOpt.getD "" else "école"
    match jsd dateDebutValue, jsd dateFinValue with
    | some startDate, some endDate =>
      if endDate < startDate then
        ([], ["Ligne " ++ toString rowNumber ++ ": Date de fin avant date de début"])
      else
        ([mkImportedEvent memberId startDate endDate (detectStatusFromSummary typeValue)
            (some typeValue)], [])
    | _, _ => ([], ["Ligne " ++ toString rowNumber ++ ": Date invalide"])

/-- `parseCSVFile` (lines 872–1005). -/
def parseCSVFile (jsd : String → Option Int) (text : String) (memberId : String) :
    ParseResult :=
  if jsTrim text == "" then mkErrorResult ["Le fichier CSV est vide"]
  else
    let rows := parseSimpleCSV text
    if rows.isEmpty then mkErrorResult ["Aucune donnée trouvée dans le fichier CSV"]
    else
      finalize "Aucun événement valide trouvé dans le fichier CSV"
        (collectSteps (fun p => csvRowStep jsd memberId p.1 p.2) rows.enum)

/-! ## ICS parser (calendarParser.ts lines 105–247) -/

/-- One VEVENT as seen through ical.js: the summary, and the start/end
timestamps — outer `none` when the property is missing (`!event.startDate`),
inner `none` when `toJSDate()` yields an invalid date (the NaN check). -/
structure VEvent where
  summary : Option String
  startDate : Option (Option Int)
  endDate : Option (Option Int)
deriving DecidableEq, Repr

/-- What `ICAL.parse` did to the file text: threw, or produced a list of
VEVENT subcomponents. -/
inductive IcsOutcome where
  | failed (msg : String)
  | ok (vevents : List VEvent)
deriving DecidableEq, Repr

/-- `event.summary || 'Sans titre'` as used in warning messages. -/
def vEventTitle (v : VEvent) : String :=
  match v.summary with
  | some s => if s == "" then "Sans titre" else s
  | none => "Sans titre"

/-- One VEVENT (lines 155–218): missing or invalid dates warn and skip;
inverted ranges warn and skip; otherwise one event with the summary kept as
the note and the keyword-classified status. -/
def processVEvent (memberId : String) (v : VEvent) : List CalendarEvent × List String :=
  match v.startDate, v.endDate with
  | some sd, some ed =>
    match sd, ed with
    | some startDate, some endDate =>
      if endDate < startDate then
        ([], ["Événement ignoré (date de fin avant date de début): " ++ vEventTitle v])
      else
        let summary := v.summary.getD ""
        ([mkImportedEvent memberId startDate endDate (detectStatusFromSummary summary)
            (some summary)], [])
    | _, _ => ([], ["Événement ignoré (erreur de date): " ++ vEventTitle v])
  | _, _ => ([], ["Événement ignoré (dates manquantes): " ++ vEventTitle v])

/-- `parseICSFile` (lines 105–247), with the ical.js library passed in as
`ical`. -/
def parseICSFile (ical : String → IcsOutcome) (text : String) (memberId : String) :
    ParseResult :=
  if jsTrim text == "" then mkErrorResult ["Le fichier est vide"]
  else
    match ical text with
    | .failed msg => mkErrorResult ["Format ICS invalide: " ++ msg]
    | .ok vevents =>
      if vevents.isEmpty then
        mkErrorResult ["Aucun événement trouvé dans le fichier ICS"]
      else
        finalize "Aucun événement valide trouvé" (collectSteps (processVEvent memberId) vevents)

/-! ## Format router / facade (calendarParser.ts lines 1032–1069) -/

/-- The input file: its name, its text payload (for ICS/CSV), and its first
worksheet as loaded by ExcelJS (for xlsx/xls). -/
structure FileModel where
  name : String
  text : String
  sheet : Option Sheet

/-- `file.name.split('.').pop()?.toLowerCase()`. -/
def fileExt (name : String) : String :=
  jsToLower ((jsSplit '.' name).getLastD "")

/-- `parseCalendarFile` (lines 1032–1069): dispatch on the extension. -/
def parseCalendarFile (ical : String → IcsOutcome) (jsd : String → Option Int)
    (file : FileModel) (memberId : String) : ParseResult :=
  let extension := fileExt file.name
  if extension == "" then
    mkErrorResult ["Impossible de déterminer le format du fichier"]
  else if extension == "ics" then parseICSFile ical file.text memberId
  else if extension == "xlsx" || extension == "xls" then
    parseExcelFile jsd file.sheet memberId
  else if extension == "csv" then parseCSVFile jsd file.text memberId
  else
    mkErrorResult ["Format de fichier non supporté: ." ++ extension,
      "Formats supportés: .ics, .xlsx, .xls, .csv"]

/-! ## Claim C6 — unsupported extensions -/

/-- **C6 (counterexample).** The file name "foo." has the empty extension
(`split('.').pop()` gives `""`), which is not one of ics/xlsx/xls/csv, yet
the router's error is the generic "Impossible de déterminer le format du
fichier" — no error names the supported set. -/
theorem c6_empty_extension_counterexample :
    fileExt "foo." ∉ (["ics", "xlsx", "xls", "csv"] : List String) ∧
    (parseCalendarFile (fun _ => IcsOutcome.failed "") (fun _ => none)
        ⟨"foo.", "", none⟩ "m").success = false ∧
    (parseCalendarFile (fun _ => IcsOutcome.failed "") (fun _ => none)
        ⟨"foo.", "", none⟩ "m").errors =
      ["Impossible de déterminer le format du fichier"] ∧
    ((parseCalendarFile (fun _ => IcsOutcome.failed "") (fun _ => none)
        ⟨"foo.", "", none⟩ "m").errors.all fun e => !containsSub e ".ics") = true := by
  decide

/-- **C6 (amended).** For every file whose computed extension (the text
after the last dot, lowercased) is *nonempty* and not one of
ics/xlsx/xls/csv, the router returns `success: false`, no events, and the
two-line error naming the supported set — independently of the file's
content and of the external parsers (no parsing work). A name with an empty
extension segment instead gets the generic "cannot determine format" error
(see the counterexample). -/
theorem c6_unsupported_extension_rejected (ical : String → IcsOutcome)
    (jsd : String → Option Int) (name text : String) (sheet : Option Sheet)
    (memberId : String) (hne : fileExt name ≠ "")
    (hns : fileExt name ∉ (["ics", "xlsx", "xls", "csv"] : List String)) :
    parseCalendarFile ical jsd ⟨name, text, sheet⟩ memberId =
      mkErrorResult ["Format de fichier non supporté: ." ++ fileExt name,
        "Formats supportés: .ics, .xlsx, .xls, .csv"] := by
  obtain ⟨n1, n2, n3, n4⟩ :
      fileExt name ≠ "ics" ∧ fileExt name ≠ "xlsx" ∧ fileExt name ≠ "xls" ∧
        fileExt name ≠ "csv" := by
    simpa using hns
  unfold parseCalendarFile
  dsimp only
  simp [hne, n1, n2, n3, n4]

/-- Witness for C6 (amended) at a ".txt" upload. -/
theorem c6_unsupported_extension_rejected_witness :
    parseCalendarFile (fun _ => IcsOutcome.failed "") (fun _ => none)
        ⟨"foo.txt", "irrelevant", none⟩ "m" =
      mkErrorResult ["Format de fichier non supporté: ." ++ fileExt "foo.txt",
        "Formats supportés: .ics, .xlsx, .xls, .csv"] :=
  c6_unsupported_extension_rejected (fun _ => IcsOutcome.failed "") (fun _ => none)
    "foo.txt" "irrelevant" none "m" (by decide) (by decide)

/-! ## Claim C1 — the ParseResult invariant -/

theorem resultInvariant_mkErrorResult (errs : List String) :
    resultInvariant (mkErrorResult errs) := by
  simp [resultInvariant, mkErrorResult]

theorem resultInvariant_finalize (msg : String) (res : List CalendarEvent × List String) :
    resultInvariant (finalize msg res) := by
  by_cases h : res.1.isEmpty
  · simp [resultInvariant, finalize, h]
  · simp [resultInvariant, finalize, h]
    simpa [List.isEmpty_iff] using h

theorem parseICSFile_invariant (ical : String → IcsOutcome) (text memberId : String) :
    resultInvariant (parseICSFile ical text memberId) := by
  unfold parseICSFile
  split
  · exact resultInvariant_mkErrorResult _
  · split
    · exact resultInvariant_mkErrorResult _
    · split
      · exact resultInvariant_mkErrorResult _
      · exact resultInvariant_finalize _ _

theorem parseWeeklyCalendarFormat_invariant (ws : Sheet) (cm : ColumnMap)
    (ds : Nat) (memberId : String) :
    resultInvariant (parseWeeklyCalendarFormat ws cm ds memberId) := by
  unfold parseWeeklyCalendarFormat
  dsimp only
  split
  · exact resultInvariant_mkErrorResult _
  · exact resultInvariant_finalize _ _

theorem parseExcelFile_invariant (jsd : String → Option Int) (sheet? : Option Sheet)
    (memberId : String) : resultInvariant (parseExcelFile jsd sheet? memberId) := by
  unfold parseExcelFile
  split
  · exact resultInvariant_mkErrorResult _
  · dsimp only
    split
    · exact resultInvariant_mkErrorResult _
    · split
      · exact parseWeeklyCalendarFormat_invariant _ _ _ _
      · split
        · exact resultInvariant_finalize _ _
        · exact resultInvariant_mkErrorResult _

theorem parseCSVFile_invariant (jsd : String → Option Int) (text memberId : String) :
    resultInvariant (parseCSVFile jsd text memberId) := by
  unfold parseCSVFile
  split
  · exact resultInvariant_mkErrorResult _
  · dsimp only
    split
    · exact resultInvariant_mkErrorResult _
    · exact resultInvariant_finalize _ _

/-- **C1.** Every result returned by the facade `parseCalendarFile` and by
each format-specific parser (`parseICSFile`, `parseExcelFile`,
`parseCSVFile`) satisfies the ParseResult invariant: `success = true`
implies a non-empty event list, and a non-empty `errors` array implies
`success = false`. -/
theorem c1_parse_result_invariant (ical : String → IcsOutcome)
    (jsd : String → Option Int) (file : FileModel) (memberId : String)
    (icsText csvText : String) (sheet? : Option Sheet) :
    resultInvariant (parseCalendarFile ical jsd file memberId) ∧
    resultInvariant (parseICSFile ical icsText memberId) ∧
    resultInvariant (parseExcelFile jsd sheet? memberId) ∧
    resultInvariant (parseCSVFile jsd csvText memberId) := by
  refine ⟨?_, parseICSFile_invariant _ _ _, parseExcelFile_invariant _ _ _,
    parseCSVFile_invariant _ _ _⟩
  unfold parseCalendarFile
  dsimp only
  split
  · exact resultInvariant_mkErrorResult _
  · split
    · exact parseICSFile_invariant _ _ _
    · split
      · exact parseExcelFile_invariant _ _ _
      · split
        · exact parseCSVFile_invariant _ _ _
        · exact resultInvariant_mkErrorResult _

/-- Witness for C1 at concrete inputs (a CSV upload carrying one valid
"Vacances" row, and concrete external parsers). -/
theorem c1_parse_result_invariant_witness :
    resultInvariant (parseCalendarFile (fun _ => IcsOutcome.failed "") (fun _ => some 0)
      ⟨"cal.csv", "Date,Type\n2025-01-13,Vacances", none⟩ "m") ∧
    resultInvariant (parseICSFile (fun _ => IcsOutcome.failed "") "" "m") ∧
    resultInvariant (parseExcelFile (fun _ => some 0) none "m") ∧
    resultInvariant (parseCSVFile (fun _ => some 0) "Date,Type\n2025-01-13,Vacances" "m") :=
  c1_parse_result_invariant (fun _ => IcsOutcome.failed "") (fun _ => some 0)
    ⟨"cal.csv", "Date,Type\n2025-01-13,Vacances", none⟩ "m" ""
    "Date,Type\n2025-01-13,Vacances" none

/-! ## Claim C7 — events are day-normalized -/

theorem mem_finalize_events {msg : String} {res : List CalendarEvent × List String}
    {ev : CalendarEvent} (h : ev ∈ (finalize msg res).events) : ev ∈ res.1 := by
  unfold finalize at h
  split at h
  · simp at h
  · exact h

theorem processVEvent_normalized (memberId : String) (v : VEvent) :
    ∀ ev ∈ (processVEvent memberId v).1, dayNormalized ev := by
  intro ev hev
  unfold processVEvent at hev
  split at hev
  · split at hev
    · split at hev
      · simp at hev
      · rename_i hlt
        simp at hev
        subst hev
        exact mkImportedEvent_normalized (Int.not_lt.mp hlt)
    · simp at hev
  · simp at hev

theorem weekRowStep_normalized (dCol : Nat) (wcols : List WeekdayCol)
    (memberId : String) (rowNum : Nat) (row : Row) :
    ∀ ev ∈ (weekRowStep dCol wcols memberId rowNum row).1, dayNormalized ev := by
  intro ev hev
  rw [weekRowStep] at hev
  split at hev
  · simp at hev
  · dsimp only at hev
    split at hev
    · simp at hev
    · split at hev
      · simp at hev
      · split at hev
        · simp at hev
          obtain ⟨wc, _, rfl⟩ := hev
          exact mkImportedEvent_normalized le_rfl
        · simp at hev

theorem excelRowStep_normalized (jsd : String → Option Int) (cm : ColumnMap)
    (memberId : String) (rowNumber : Nat) (row : Row) :
    ∀ ev ∈ (excelRowStep jsd cm memberId rowNumber row).1, dayNormalized ev := by
  intro ev hev
  rw [excelRowStep] at hev
  split at hev
  · simp at hev
  · dsimp only at hev
    split at hev
    · simp at hev
    · split at hev
      · split at hev
        · simp at hev
        · rename_i hlt
          simp at hev
          subst hev
          exact mkImportedEvent_normalized (Int.not_lt.mp hlt)
      · simp at hev

theorem csvRowStep_normalized (jsd : String → Option Int) (memberId : String)
    (index : Nat) (row : CsvRow) :
    ∀ ev ∈ (csvRowStep jsd memberId index row).1, dayNormalized ev := by
  intro ev hev
  rw [csvRowStep] at hev
  split at hev
  · simp at hev
  · dsimp only at hev
    split at hev
    · split at hev
      · simp at hev
      · rename_i hlt
        simp at hev
        subst hev
        exact mkImportedEvent_normalized (Int.not_lt.mp hlt)
    · simp at hev

theorem parseICSFile_normalized (ical : String → IcsOutcome) (text memberId : String) :
    ∀ ev ∈ (parseICSFile ical text memberId).events, dayNormalized ev := by
  intro ev hev
  unfold parseICSFile at hev
  split at hev
  · simp [mkErrorResult] at hev
  · split at hev
    · simp [mkErrorResult] at hev
    · split at hev
      · simp [mkErrorResult] at hev
      · obtain ⟨v, _, h2⟩ := mem_collectSteps_events.mp (mem_finalize_events hev)
        exact processVEvent_normalized _ _ _ h2

theorem parseWeeklyCalendarFormat_normalized (ws : Sheet) (cm : ColumnMap)
    (ds : Nat) (memberId : String) :
    ∀ ev ∈ (parseWeeklyCalendarFormat ws cm ds memberId).events, dayNormalized ev := by
  intro ev hev
  unfold parseWeeklyCalendarFormat at hev
  dsimp only at hev
  split at hev
  · simp [mkErrorResult] at hev
  · obtain ⟨n, _, h2⟩ := mem_collectSteps_events.mp (mem_finalize_events hev)
    exact weekRowStep_normalized _ _ _ _ _ _ h2

theorem parseExcelFile_normalized (jsd : String → Option Int) (sheet? : Option Sheet)
    (memberId : String) :
    ∀ ev ∈ (parseExcelFile jsd sheet? memberId).events, dayNormalized ev := by
  intro ev hev
  unfold parseExcelFile at hev
  split at hev
  · simp [mkErrorResult] at hev
  · dsimp only at hev
    split at hev
    · simp [mkErrorResult] at hev
    · split at hev
      · exact parseWeeklyCalendarFormat_normalized _ _ _ _ _ hev
      · split at hev
        · obtain ⟨n, _, h2⟩ := mem_collectSteps_events.mp (mem_finalize_events hev)
          exact excelRowStep_normalized _ _ _ _ _ _ h2
        · simp [mkErrorResult] at hev

theorem parseCSVFile_normalized (jsd : String → Option Int) (text memberId : String) :
    ∀ ev ∈ (parseCSVFile jsd text memberId).events, dayNormalized ev := by
  intro ev hev
  unfold parseCSVFile at hev
  split at hev
  · simp [mkErrorResult] at hev
  · dsimp only at hev
    split at hev
    · simp [mkErrorResult] at hev
    · obtain ⟨p, _, h2⟩ := mem_collectSteps_events.mp (mem_finalize_events hev)
      exact csvRowStep_normalized _ _ _ _ _ h2

/-- **C7.** Every event emitted by any of the parsers (and by the facade) is
day-normalized: its `startDate` is a midnight (time-of-day 0), its `endDate`
is 23:59:59.999 of a day (exactly 1 ms before the next day's start), and
`endDate ≥ startDate`. -/
theorem c7_events_day_normalized (ical : String → IcsOutcome)
    (jsd : String → Option Int) (file : FileModel) (memberId : String)
    (icsText csvText : String) (sheet? : Option Sheet) :
    (∀ ev ∈ (parseICSFile ical icsText memberId).events, dayNormalized ev) ∧
    (∀ ev ∈ (parseExcelFile jsd sheet? memberId).events, dayNormalized ev) ∧
    (∀ ev ∈ (parseCSVFile jsd csvText memberId).events, dayNormalized ev) ∧
    (∀ ev ∈ (parseCalendarFile ical jsd file memberId).events, dayNormalized ev) := by
  refine ⟨parseICSFile_normalized _ _ _, parseExcelFile_normalized _ _ _,
    parseCSVFile_normalized _ _ _, ?_⟩
  intro ev hev
  unfold parseCalendarFile at hev
  dsimp only at hev
  split at hev
  · simp [mkErrorResult] at hev
  · split at hev
    · exact parseICSFile_normalized _ _ _ _ hev
    · split at hev
      · exact parseExcelFile_normalized _ _ _ _ hev
      · split at hev
        · exact parseCSVFile_normalized _ _ _ _ hev
        · simp [mkErrorResult] at hev

/-- Witness for C7: the concrete event parsed from a one-row CSV upload is
day-normalized. -/
theorem c7_events_day_normalized_witness :
    dayNormalized
      { id := "import", memberId := "m", startDate := 0, endDate := 86399999,
        status := vacation, note := some "Vacances", isImported := true } :=
  (c7_events_day_normalized (fun _ => IcsOutcome.failed "")
      (fun s => if s == "2025-01-13" then some 1000000 else none)
      ⟨"cal.csv", "Date,Type\n2025-01-13,Vacances", none⟩ "m" ""
      "Date,Type\n2025-01-13,Vacances" none).2.2.1
    { id := "import", memberId := "m", startDate := 0, endDate := 86399999,
      status := vacation, note := some "Vacances", isImported := true }
    (by decide)
